import Mathlib

/-
Verification of the resize pipeline of the re-position library
(src/observables/resize.ts), as a shallow embedding over an ordered field.

Stage functions are translated directly from the source.  The JavaScript
Math primitives (cos, sin, PI, atan2, sqrt) are external to the program and
are passed in as a parameter record, so that every definition stays
executable; theorems about the actual pipeline instantiate the record with
the real-analysis functions.
-/

set_option linter.unusedSectionVars false
set_option linter.unusedVariables false

namespace RePosition

/-- Position record from src/types: left, top, width, height, numeric, in the
element's local pixel space. -/
structure Position (α : Type) where
  left : α
  top : α
  width : α
  height : α

/-- Dimensions record from src/types: a displacement expressed on the
element's local axes. -/
structure Dimensions (α : Type) where
  width : α
  height : α

/-- AngleAndDistance record from src/types: polar form of a screen-space
pointer displacement (angle in degrees, distance in local units). -/
structure AngleAndDistance (α : Type) where
  angle : α
  distance : α

/-- A resolved 2-D affine transform in DOM matrix layout:
x' = a x + c y + e, y' = b x + d y + f. -/
structure Matrix (α : Type) where
  a : α
  b : α
  c : α
  d : α
  e : α
  f : α

/-- A point in screen space. -/
structure Point (α : Type) where
  x : α
  y : α

/-- The four transformed corner points of a Position. -/
structure Corners (α : Type) where
  nw : Point α
  ne : Point α
  se : Point α
  sw : Point α

/-- Unit suffix of an emitted PositionStrings field. -/
inductive CssUnit where
  | px : CssUnit
  | percent : CssUnit

/-- PositionStrings from src/types: the output shape of the pipeline, each
field a rounded number rendered with a unit suffix; modelled as the four
rounded values together with the unit used. -/
structure PositionStrings (α : Type) where
  left : α
  top : α
  width : α
  height : α
  unit : CssUnit

/-- The JavaScript Math primitives used by the source, kept abstract so that
all pipeline definitions remain executable; arctan2 takes y then x and
returns radians in (-pi, pi]. -/
structure MathPrims (α : Type) where
  cos : α → α
  sin : α → α
  pi : α
  arctan2 : α → α → α
  sqrt : α → α

variable {α : Type} [LinearOrderedField α] [FloorRing α]

/-- Modelled from the spec: round (src/utils, not under src/) rounds to a
fixed, small number of decimal places for display stability; two decimal
places are used here. -/
def round (v : α) : α :=
  ((⌊v * 100 + 1 / 2⌋ : ℤ) : α) / 100

/-- Rounding to the nearest multiple of a step, JavaScript
Math.round(v / s) * s with Math.round rounding half up. -/
def snapTo (s v : α) : α :=
  s * ((⌊v / s + 1 / 2⌋ : ℤ) : α)

/-- Modelled from the spec: snapObjectValues (src/utils, not under src/) --
if a step is set, rounds each of left, top, width, height to the nearest
multiple of the step; otherwise the identity. -/
def snapObjectValues (snap : Option α) (position : Position α) : Position α :=
  match snap with
  | none => position
  | some s => ⟨snapTo s position.left, snapTo s position.top,
               snapTo s position.width, snapTo s position.height⟩

/-- Modelled from the spec: angleBetweenPoints (src/utils, not under src/) --
standard atan2-based angle from (x0, y0) to (x1, y1) in screen-space
convention, returned in degrees in [0, 360). -/
def angleBetweenPoints (prims : MathPrims α) (x0 y0 x1 y1 : α) : α :=
  let deg := prims.arctan2 (y1 - y0) (x1 - x0) * 180 / prims.pi
  if deg < 0 then deg + 360 else deg

/-- Modelled from the spec: distanceBetweenPoints (src/utils, not under
src/) -- Euclidean distance. -/
def distanceBetweenPoints (prims : MathPrims α) (x0 y0 x1 y1 : α) : α :=
  prims.sqrt ((x1 - x0) ^ 2 + (y1 - y0) ^ 2)

/-- Calculates the angle and distance from an origin point to a mouse event,
the distance divided by the captured scale (src/observables/resize.ts). -/
def angleAndDistanceFromPointToMouseEvent (prims : MathPrims α)
    (originX originY scale : α) (clientX clientY : α) : AngleAndDistance α :=
  ⟨angleBetweenPoints prims originX originY clientX clientY,
   distanceBetweenPoints prims originX originY clientX clientY / scale⟩

/-- Translate angle and distance change of the handle to change in x and y,
taking the old rotation of the element into account
(src/observables/resize.ts). -/
def horizontalAndVerticalChange (prims : MathPrims α) (oldRotation : α)
    (angleAndDistanceChange : AngleAndDistance α) : Dimensions α :=
  let angleRadians := (angleAndDistanceChange.angle - oldRotation) * prims.pi / 180
  ⟨angleAndDistanceChange.distance * prims.cos angleRadians,
   angleAndDistanceChange.distance * prims.sin angleRadians⟩

/-- Apply horizontal and vertical change to the old element's dimensions
(src/observables/resize.ts). -/
def applyToOriginalDimensions (oldPosition : Position α)
    (top right bottom left : Bool) (change : Dimensions α) : Position α :=
  let positionLeft :=
    if left then oldPosition.left + change.width else oldPosition.left
  let positionTop :=
    if top then oldPosition.top + change.height else oldPosition.top
  let positionWidth :=
    if left then oldPosition.width - change.width
    else if right then oldPosition.width + change.width
    else oldPosition.width
  let positionHeight :=
    if top then oldPosition.height - change.height
    else if bottom then oldPosition.height + change.height
    else oldPosition.height
  ⟨positionLeft, positionTop, positionWidth, positionHeight⟩

/-- Limit the dimensions to a twenty pixel minimum height and width
(src/observables/resize.ts). -/
def limitToTwentyPxMinimum (position : Position α) : Position α :=
  ⟨position.left, position.top, max 20 position.width, max 20 position.height⟩

/-- If shouldLock is true, the new dimensions are forced into the provided
aspect ratio (src/observables/resize.ts). -/
def lockAspectRatio (shouldLock : Bool) (aspectRatio : α)
    (position : Position α) : Position α :=
  if !shouldLock then position
  else if position.width / position.height > aspectRatio then
    { position with height := position.width / aspectRatio }
  else if position.width / position.height < aspectRatio then
    { position with width := position.height * aspectRatio }
  else position

/-- Application of a resolved affine transform to a point. -/
def applyMatrix (m : Matrix α) (x y : α) : Point α :=
  ⟨m.a * x + m.c * y + m.e, m.b * x + m.d * y + m.f⟩

/-- Modelled from the spec: corners (src/utils, not under src/) -- applies
the matrix to the four corners implied by the position, returning
screen-space points. -/
def corners (position : Position α) (matrix : Matrix α) : Corners α :=
  ⟨applyMatrix matrix position.left position.top,
   applyMatrix matrix (position.left + position.width) position.top,
   applyMatrix matrix (position.left + position.width) (position.top + position.height),
   applyMatrix matrix position.left (position.top + position.height)⟩

/-- Fudge the left and top in order to keep the perceived visual position
the same (src/observables/resize.ts). -/
def offsetForVisualConsistency (oldPosition : Position α)
    (transformMatrix : Matrix α) (top right bottom left : Bool)
    (newPosition : Position α) : Position α :=
  let oldCorners := corners oldPosition transformMatrix
  let newCorners := corners newPosition transformMatrix
  let change : Point α :=
    if bottom && left then
      ⟨newCorners.ne.x - oldCorners.ne.x, newCorners.ne.y - oldCorners.ne.y⟩
    else if top && right then
      ⟨newCorners.sw.x - oldCorners.sw.x, newCorners.sw.y - oldCorners.sw.y⟩
    else if top || left then
      ⟨newCorners.se.x - oldCorners.se.x, newCorners.se.y - oldCorners.se.y⟩
    else
      ⟨newCorners.nw.x - oldCorners.nw.x, newCorners.nw.y - oldCorners.nw.y⟩
  ⟨newPosition.left - change.x, newPosition.top - change.y,
   newPosition.width, newPosition.height⟩

/-- Convert pixel dimensions to a percentage of the parent's dimensions, or
emit rounded pixel values directly (src/observables/resize.ts). -/
def convertDimensionsToPercent (shouldConvertToPercent : Bool)
    (parentWidth parentHeight : α) (position : Position α) : PositionStrings α :=
  if shouldConvertToPercent then
    ⟨round (position.left / parentWidth * 100),
     round (position.top / parentHeight * 100),
     round (position.width / parentWidth * 100),
     round (position.height / parentHeight * 100),
     CssUnit.percent⟩
  else
    ⟨round position.left, round position.top,
     round position.width, round position.height, CssUnit.px⟩

/-- The per-sample transform chain of createResizeObservable
(src/observables/resize.ts, lines 70-113) from the polar pointer delta to
the corrected local-space rectangle, before percent conversion: rotation
unwind, edge application, the twenty pixel floor, snapping, aspect lock and
anchor correction, in the source's order.  The distinctUntilChanged stage
sits between snapObjectValues and lockAspectRatio and only ever filters
whole values, so it does not appear in the per-sample function. -/
def resizePipeline (prims : MathPrims α) (oldPosition : Position α)
    (oldRotation : α) (transformMatrix : Matrix α) (snap : Option α)
    (shiftKey : Bool) (top right bottom left : Bool)
    (sample : AngleAndDistance α) : Position α :=
  offsetForVisualConsistency oldPosition transformMatrix top right bottom left
    (lockAspectRatio shiftKey (oldPosition.width / oldPosition.height)
      (snapObjectValues snap
        (limitToTwentyPxMinimum
          (applyToOriginalDimensions oldPosition top right bottom left
            (horizontalAndVerticalChange prims oldRotation sample)))))

/-- Emissions of one resize session for a list of pointer-move samples,
measured before percent conversion.  In the source, distinctUntilChanged()
is called with no comparator, so successive values are compared with strict
reference equality; every upstream stage (applyToOriginalDimensions,
limitToTwentyPxMinimum, the object literals of snapObjectValues) allocates
a fresh object per event, hence the comparison is always false and no
element is ever suppressed: the emitted list is exactly the mapped list. -/
def pipelineOutputs (prims : MathPrims α) (oldPosition : Position α)
    (oldRotation : α) (transformMatrix : Matrix α) (snap : Option α)
    (shiftKey : Bool) (top right bottom left : Bool)
    (samples : List (AngleAndDistance α)) : List (Position α) :=
  samples.map
    (resizePipeline prims oldPosition oldRotation transformMatrix snap
      shiftKey top right bottom left)

/-- Modelled from the spec: the frame throttle and lifecycle
(requestAnimationFramesUntil and the document streams of
src/observables/misc, not under src/) -- every sample here falls in its own
display frame, the final sample is flushed on pointer-up, and the
completion callback is invoked exactly once when the session terminates.
Returns the converted emissions of one session and the number of
completion-callback invocations. -/
def runResizeSession (prims : MathPrims α) (downX downY scale : α)
    (shiftKey : Bool) (oldPosition : Position α) (oldRotation : α)
    (transformMatrix : Matrix α) (snap : Option α)
    (shouldConvertToPercent : Bool) (parentWidth parentHeight : α)
    (top right bottom left : Bool) (moves : List (α × α)) :
    List (PositionStrings α) × ℕ :=
  ⟨moves.map (fun m =>
      convertDimensionsToPercent shouldConvertToPercent parentWidth parentHeight
        (resizePipeline prims oldPosition oldRotation transformMatrix snap
          shiftKey top right bottom left
          (angleAndDistanceFromPointToMouseEvent prims downX downY scale
            m.1 m.2))),
   1⟩

/-- Modelled from the spec: the session snapshot captured at pointer-down --
old position, old rotation, transform matrix and scale read from the
element, together with the pointer-down coordinates and the modifier state
read from the event. -/
structure Snapshot (α : Type) where
  oldPosition : Position α
  oldRotation : α
  transformMatrix : Matrix α
  scale : α
  originX : α
  originY : α
  shiftKey : Bool

/-- An event seen by the session manager: a left-button pointer-down (with
the snapshot it captures), a pointer-move, or a pointer-up. -/
inductive SessionEvent (α : Type) where
  | pointerDown : Snapshot α → SessionEvent α
  | pointerMove : α → α → SessionEvent α
  | pointerUp : SessionEvent α

/-- One pointer-move processed through the full chain of the session whose
snapshot is given, from raw client coordinates to the corrected rectangle. -/
def resizeSessionSample (prims : MathPrims α) (snap : Option α)
    (top right bottom left : Bool) (s : Snapshot α) (x y : α) : Position α :=
  resizePipeline prims s.oldPosition s.oldRotation s.transformMatrix snap
    s.shiftKey top right bottom left
    (angleAndDistanceFromPointToMouseEvent prims s.originX s.originY s.scale x y)

/-- Modelled from the spec: the session manager built from mouseDown piped
through switchMap (src/observables/resize.ts, lines 59-68) -- each
pointer-down tears down the running inner pipeline and starts a fresh one
from a fresh snapshot, pointer-moves are processed by the currently active
session only, and pointer-up ends the active session.  Outputs are tagged
with the ordinal of the session that produced them. -/
def runSessionsFrom (prims : MathPrims α) (snap : Option α)
    (top right bottom left : Bool) :
    ℕ → Option (ℕ × Snapshot α) → List (SessionEvent α) → List (ℕ × Position α)
  | _, _, [] => []
  | counter, _, SessionEvent.pointerDown s :: rest =>
      runSessionsFrom prims snap top right bottom left
        (counter + 1) (some (counter + 1, s)) rest
  | counter, some (i, s), SessionEvent.pointerMove x y :: rest =>
      (i, resizeSessionSample prims snap top right bottom left s x y) ::
        runSessionsFrom prims snap top right bottom left counter (some (i, s)) rest
  | counter, none, SessionEvent.pointerMove _ _ :: rest =>
      runSessionsFrom prims snap top right bottom left counter none rest
  | counter, _, SessionEvent.pointerUp :: rest =>
      runSessionsFrom prims snap top right bottom left counter none rest

/-- The identity transform, the resolved matrix of an unrotated, unscaled
element. -/
def identityMatrix : Matrix α :=
  ⟨1, 0, 0, 1, 0, 0⟩

/-- The actual JavaScript Math primitives, interpreted over the reals. -/
noncomputable def realPrims : MathPrims ℝ :=
  ⟨Real.cos, Real.sin, Real.pi, fun y x => Complex.arg ⟨x, y⟩, Real.sqrt⟩

/-- A computable stand-in primitive record over the rationals, used to
evaluate the trig-free parts of the pipeline on concrete inputs. -/
def qPrims : MathPrims ℚ :=
  ⟨fun _ => 1, fun _ => 0, 3, fun _ _ => 0, fun _ => 1⟩

/-- The twenty pixel floor establishes both minimum dimensions. -/
theorem limitToTwentyPxMinimum_ge (p : Position α) :
    20 ≤ (limitToTwentyPxMinimum p).width ∧ 20 ≤ (limitToTwentyPxMinimum p).height :=
  ⟨le_max_left _ _, le_max_left _ _⟩

/-- Snapping with no configured step is the identity. -/
theorem snapObjectValues_none (p : Position α) :
    snapObjectValues none p = p :=
  rfl

/-- Against a positive target ratio, the aspect lock never decreases either
dimension of a position with positive height. -/
theorem lockAspectRatio_dims_ge (shouldLock : Bool) (ratio : α)
    (p : Position α) (hr : 0 < ratio) (hh : 0 < p.height) :
    p.width ≤ (lockAspectRatio shouldLock ratio p).width ∧
      p.height ≤ (lockAspectRatio shouldLock ratio p).height := by
  cases shouldLock with
  | false => simp [lockAspectRatio]
  | true =>
    unfold lockAspectRatio
    by_cases h1 : ratio < p.width / p.height
    · have hwr : ratio * p.height < p.width := (lt_div_iff₀ hh).mp h1
      have : p.height ≤ p.width / ratio := by
        rw [le_div_iff₀ hr]
        exact le_of_lt (by linarith [hwr])
      simp [h1, this]
    · by_cases h2 : p.width / p.height < ratio
      · have hwr : p.width < ratio * p.height := (div_lt_iff₀ hh).mp h2
        have : p.width ≤ p.height * ratio := le_of_lt (by linarith [hwr])
        simp [h1, h2, this]
      · simp [h1, h2]

/-- Anchor correction only translates: width and height pass through. -/
theorem offsetForVisualConsistency_dims (oldPosition : Position α)
    (transformMatrix : Matrix α) (top right bottom left : Bool)
    (newPosition : Position α) :
    (offsetForVisualConsistency oldPosition transformMatrix
        top right bottom left newPosition).width = newPosition.width ∧
      (offsetForVisualConsistency oldPosition transformMatrix
        top right bottom left newPosition).height = newPosition.height :=
  ⟨rfl, rfl⟩

/-- Claim C10: for every input position, old position, transform matrix and
combination of edge flags, the anchor-correction stage changes only the
left and top fields -- the width and height of its output are exactly the
width and height of its input position. -/
theorem C10_anchor_correction_changes_only_left_top (oldPosition : Position α)
    (transformMatrix : Matrix α) (top right bottom left : Bool)
    (newPosition : Position α) :
    (offsetForVisualConsistency oldPosition transformMatrix
        top right bottom left newPosition).width = newPosition.width ∧
      (offsetForVisualConsistency oldPosition transformMatrix
        top right bottom left newPosition).height = newPosition.height :=
  ⟨rfl, rfl⟩

/-- Claim C3: for a resize session with the nw handle (top and left edges
active, anchor corner se) starting at left 100, top 100, width 200, height
100 under zero rotation (identity transform), for every candidate position
produced by a resize delta, after the anchor-correction stage the
screen-space location of the se corner, the point (left + width,
top + height) mapped through the session's transform matrix, equals its
location for the old position -- here exactly, hence within rounding
tolerance. -/
theorem C3_nw_handle_se_corner_invariant (newPosition : Position α) :
    (corners
        (offsetForVisualConsistency ⟨100, 100, 200, 100⟩ identityMatrix
          true false false true newPosition)
        identityMatrix).se =
      (corners (⟨100, 100, 200, 100⟩ : Position α) identityMatrix).se := by
  simp [corners, offsetForVisualConsistency, applyMatrix, identityMatrix]
  constructor <;> ring

/-- Claim C5: for every local delta and every combination of edge flags with
at most one of left and right and at most one of top and bottom active, the
edge-application stage adjusts exactly the fields of the active edges --
left active moves left by dx and shrinks width by dx, right alone grows
width by dx, top active moves top by dy and shrinks height by dy, bottom
alone grows height by dy -- and every field governed by an inactive edge
pair is left unchanged from the old position. -/
theorem C5_applyToOriginalDimensions_edge_semantics (oldPosition : Position α)
    (change : Dimensions α) (top right bottom left : Bool)
    (hlr : (left && right) = false) (htb : (top && bottom) = false) :
    (left = true →
        (applyToOriginalDimensions oldPosition top right bottom left change).left =
            oldPosition.left + change.width ∧
          (applyToOriginalDimensions oldPosition top right bottom left change).width =
            oldPosition.width - change.width) ∧
      (right = true → left = false →
        (applyToOriginalDimensions oldPosition top right bottom left change).width =
          oldPosition.width + change.width) ∧
      (top = true →
        (applyToOriginalDimensions oldPosition top right bottom left change).top =
            oldPosition.top + change.height ∧
          (applyToOriginalDimensions oldPosition top right bottom left change).height =
            oldPosition.height - change.height) ∧
      (bottom = true → top = false →
        (applyToOriginalDimensions oldPosition top right bottom left change).height =
          oldPosition.height + change.height) ∧
      (left = false → right = false →
        (applyToOriginalDimensions oldPosition top right bottom left change).left =
            oldPosition.left ∧
          (applyToOriginalDimensions oldPosition top right bottom left change).width =
            oldPosition.width) ∧
      (top = false → bottom = false →
        (applyToOriginalDimensions oldPosition top right bottom left change).top =
            oldPosition.top ∧
          (applyToOriginalDimensions oldPosition top right bottom left change).height =
            oldPosition.height) ∧
      (left = false →
        (applyToOriginalDimensions oldPosition top right bottom left change).left =
          oldPosition.left) ∧
      (top = false →
        (applyToOriginalDimensions oldPosition top right bottom left change).top =
          oldPosition.top) := by
  cases top <;> cases right <;> cases bottom <;> cases left <;>
    simp_all [applyToOriginalDimensions]

/-- Witness for C5 at a concrete corner handle (bottom and left active) on a
concrete position and delta. -/
theorem C5_witness :
    (true && false) = false ∧ (false && true) = false ∧
      ((true = true →
          (applyToOriginalDimensions (⟨1, 2, 50, 60⟩ : Position ℚ)
              false false true true ⟨5, 7⟩).left = 1 + 5 ∧
            (applyToOriginalDimensions (⟨1, 2, 50, 60⟩ : Position ℚ)
              false false true true ⟨5, 7⟩).width = 50 - 5) ∧
        (false = true → true = false →
          (applyToOriginalDimensions (⟨1, 2, 50, 60⟩ : Position ℚ)
            false false true true ⟨5, 7⟩).width = 50 + 5) ∧
        (false = true →
          (applyToOriginalDimensions (⟨1, 2, 50, 60⟩ : Position ℚ)
              false false true true ⟨5, 7⟩).top = 2 + 7 ∧
            (applyToOriginalDimensions (⟨1, 2, 50, 60⟩ : Position ℚ)
              false false true true ⟨5, 7⟩).height = 60 - 7) ∧
        (true = true → false = false →
          (applyToOriginalDimensions (⟨1, 2, 50, 60⟩ : Position ℚ)
            false false true true ⟨5, 7⟩).height = 60 + 7) ∧
        (true = false → false = false →
          (applyToOriginalDimensions (⟨1, 2, 50, 60⟩ : Position ℚ)
              false false true true ⟨5, 7⟩).left = 1 ∧
            (applyToOriginalDimensions (⟨1, 2, 50, 60⟩ : Position ℚ)
              false false true true ⟨5, 7⟩).width = 50) ∧
        (false = false → true = false →
          (applyToOriginalDimensions (⟨1, 2, 50, 60⟩ : Position ℚ)
              false false true true ⟨5, 7⟩).top = 2 ∧
            (applyToOriginalDimensions (⟨1, 2, 50, 60⟩ : Position ℚ)
              false false true true ⟨5, 7⟩).height = 60) ∧
        (true = false →
          (applyToOriginalDimensions (⟨1, 2, 50, 60⟩ : Position ℚ)
            false false true true ⟨5, 7⟩).left = 1) ∧
        (false = false →
          (applyToOriginalDimensions (⟨1, 2, 50, 60⟩ : Position ℚ)
            false false true true ⟨5, 7⟩).top = 2)) :=
  ⟨rfl, rfl,
    C5_applyToOriginalDimensions_edge_semantics (⟨1, 2, 50, 60⟩ : Position ℚ)
      ⟨5, 7⟩ false false true true rfl rfl⟩

/-- Counterexample to C9 as stated: with the lock engaged, a position with
positive width and height (40 by 40) and the target ratio -1, the lock
branch for width over height exceeding the ratio recomputes the height as
40 / -1 = -40, strictly decreasing it. -/
theorem C9_counterexample :
    (lockAspectRatio true (-1) (⟨0, 0, 40, 40⟩ : Position ℚ)).height <
      (⟨0, 0, 40, 40⟩ : Position ℚ).height := by
  norm_num [lockAspectRatio]

/-- Claim C9 (amended): for every position with positive width and height
and every positive target ratio, lockAspectRatio with the lock engaged
never decreases either dimension, and consequently, applied after the
twenty-unit minimum floor, it preserves width at least 20 and height at
least 20. -/
theorem C9_lock_never_shrinks_positive_ratio (p : Position α) (ratio : α)
    (hw : 0 < p.width) (hh : 0 < p.height) (hr : 0 < ratio) :
    p.width ≤ (lockAspectRatio true ratio p).width ∧
      p.height ≤ (lockAspectRatio true ratio p).height ∧
      (20 ≤ p.width → 20 ≤ (lockAspectRatio true ratio p).width) ∧
      (20 ≤ p.height → 20 ≤ (lockAspectRatio true ratio p).height) := by
  obtain ⟨h1, h2⟩ := lockAspectRatio_dims_ge true ratio p hr hh
  exact ⟨h1, h2, fun h => le_trans h h1, fun h => le_trans h h2⟩

/-- Witness for C9 on a concrete position of ratio 4 to 3 and target
ratio 2. -/
theorem C9_witness :
    0 < ((⟨0, 0, 40, 30⟩ : Position ℚ)).width ∧
      0 < ((⟨0, 0, 40, 30⟩ : Position ℚ)).height ∧ 0 < (2 : ℚ) ∧
      ((⟨0, 0, 40, 30⟩ : Position ℚ)).width ≤
          (lockAspectRatio true 2 (⟨0, 0, 40, 30⟩ : Position ℚ)).width ∧
        ((⟨0, 0, 40, 30⟩ : Position ℚ)).height ≤
          (lockAspectRatio true 2 (⟨0, 0, 40, 30⟩ : Position ℚ)).height ∧
        (20 ≤ ((⟨0, 0, 40, 30⟩ : Position ℚ)).width →
          20 ≤ (lockAspectRatio true 2 (⟨0, 0, 40, 30⟩ : Position ℚ)).width) ∧
        (20 ≤ ((⟨0, 0, 40, 30⟩ : Position ℚ)).height →
          20 ≤ (lockAspectRatio true 2 (⟨0, 0, 40, 30⟩ : Position ℚ)).height) :=
  ⟨by norm_num, by norm_num, by norm_num,
    C9_lock_never_shrinks_positive_ratio (⟨0, 0, 40, 30⟩ : Position ℚ) 2
      (by norm_num) (by norm_num) (by norm_num)⟩

/-- Claim C4: with aspect lock engaged and a target ratio, for every
candidate position with positive height (and a positive target ratio): if
width over height exceeds the target ratio the lock stage recomputes
height from width, if it is below it recomputes width from height, if
equal it returns the position unchanged, and the resulting position always
satisfies width over height equal to the target ratio -- here exactly,
hence within rounding -- with exactly one of width or height recomputed
from the other. -/
theorem C4_lockAspectRatio_forces_ratio (p : Position α) (ratio : α)
    (hh : 0 < p.height) (hr : 0 < ratio) :
    (ratio < p.width / p.height →
        lockAspectRatio true ratio p = { p with height := p.width / ratio }) ∧
      (p.width / p.height < ratio →
        lockAspectRatio true ratio p = { p with width := p.height * ratio }) ∧
      (p.width / p.height = ratio → lockAspectRatio true ratio p = p) ∧
      (lockAspectRatio true ratio p).width / (lockAspectRatio true ratio p).height
        = ratio := by
  rcases lt_trichotomy (p.width / p.height) ratio with h | h | h
  · refine ⟨fun h2 => absurd h2 (not_lt_of_gt h), fun _ => ?_, fun h2 => ?_, ?_⟩
    · simp [lockAspectRatio, h, not_lt_of_gt h]
    · exact absurd h2 (ne_of_lt h)
    · simp only [lockAspectRatio, Bool.not_true, if_neg, gt_iff_lt,
        not_lt_of_gt h, if_false, h, if_true, Bool.false_eq_true, ite_false]
      rw [mul_comm, mul_div_assoc, div_self (ne_of_gt hh), mul_one]
  · refine ⟨fun h2 => absurd h2 (by rw [h]; exact lt_irrefl ratio),
      fun h2 => absurd h2 (by rw [h]; exact lt_irrefl ratio), fun _ => ?_, ?_⟩
    · simp [lockAspectRatio, h]
    · simp only [lockAspectRatio, Bool.not_true, Bool.false_eq_true, ite_false]
      rw [if_neg (by rw [h]; exact lt_irrefl ratio),
        if_neg (by rw [h]; exact lt_irrefl ratio)]
      exact h
  · have hw : 0 < p.width := by
      have := (lt_div_iff₀ hh).mp h
      nlinarith
    refine ⟨fun _ => ?_, fun h2 => absurd h2 (not_lt_of_gt h), fun h2 => ?_, ?_⟩
    · simp [lockAspectRatio, h]
    · exact absurd h2 (ne_of_gt h)
    · simp only [lockAspectRatio, Bool.not_true, Bool.false_eq_true, ite_false]
      rw [if_pos h]
      simp only
      rw [div_div_eq_mul_div, mul_comm, mul_div_assoc,
        div_self (ne_of_gt hw), mul_one]

/-- Witness for C4 on a concrete position of ratio 3 and target ratio 2. -/
theorem C4_witness :
    0 < ((⟨0, 0, 30, 10⟩ : Position ℚ)).height ∧ 0 < (2 : ℚ) ∧
      ((2 < ((⟨0, 0, 30, 10⟩ : Position ℚ)).width /
            ((⟨0, 0, 30, 10⟩ : Position ℚ)).height →
          lockAspectRatio true 2 (⟨0, 0, 30, 10⟩ : Position ℚ) =
            { (⟨0, 0, 30, 10⟩ : Position ℚ) with
                height := ((⟨0, 0, 30, 10⟩ : Position ℚ)).width / 2 }) ∧
        (((⟨0, 0, 30, 10⟩ : Position ℚ)).width /
              ((⟨0, 0, 30, 10⟩ : Position ℚ)).height < 2 →
          lockAspectRatio true 2 (⟨0, 0, 30, 10⟩ : Position ℚ) =
            { (⟨0, 0, 30, 10⟩ : Position ℚ) with
                width := ((⟨0, 0, 30, 10⟩ : Position ℚ)).height * 2 }) ∧
        (((⟨0, 0, 30, 10⟩ : Position ℚ)).width /
              ((⟨0, 0, 30, 10⟩ : Position ℚ)).height = 2 →
          lockAspectRatio true 2 (⟨0, 0, 30, 10⟩ : Position ℚ) =
            (⟨0, 0, 30, 10⟩ : Position ℚ)) ∧
        (lockAspectRatio true 2 (⟨0, 0, 30, 10⟩ : Position ℚ)).width /
            (lockAspectRatio true 2 (⟨0, 0, 30, 10⟩ : Position ℚ)).height = 2) :=
  ⟨by norm_num, by norm_num,
    C4_lockAspectRatio_forces_ratio (⟨0, 0, 30, 10⟩ : Position ℚ) 2
      (by norm_num) (by norm_num)⟩

/-- Claim C1 (amended): for every resize session whose captured starting
position has positive width and height, with no snap step configured and
any aspect-lock state, every Position emitted by the resize pipeline has
width at least 20 and height at least 20 in local units, measured before
percent conversion. -/
theorem C1_min_size_invariant_without_snap (prims : MathPrims α)
    (oldPosition : Position α) (oldRotation : α) (transformMatrix : Matrix α)
    (shiftKey top right bottom left : Bool)
    (hw : 0 < oldPosition.width) (hh : 0 < oldPosition.height)
    (samples : List (AngleAndDistance α)) (p : Position α)
    (hp : p ∈ pipelineOutputs prims oldPosition oldRotation transformMatrix
      none shiftKey top right bottom left samples) :
    20 ≤ p.width ∧ 20 ≤ p.height := by
  simp only [pipelineOutputs, List.mem_map] at hp
  obtain ⟨s, hs, rfl⟩ := hp
  simp only [resizePipeline, snapObjectValues_none]
  have hlim := limitToTwentyPxMinimum_ge
    (applyToOriginalDimensions oldPosition top right bottom left
      (horizontalAndVerticalChange prims oldRotation s))
  have hratio : 0 < oldPosition.width / oldPosition.height := div_pos hw hh
  have hpos : 0 < (limitToTwentyPxMinimum
      (applyToOriginalDimensions oldPosition top right bottom left
        (horizontalAndVerticalChange prims oldRotation s))).height :=
    lt_of_lt_of_le (by norm_num) hlim.2
  have hlock := lockAspectRatio_dims_ge shiftKey
    (oldPosition.width / oldPosition.height)
    (limitToTwentyPxMinimum
      (applyToOriginalDimensions oldPosition top right bottom left
        (horizontalAndVerticalChange prims oldRotation s)))
    hratio hpos
  obtain ⟨ho1, ho2⟩ := offsetForVisualConsistency_dims oldPosition
    transformMatrix top right bottom left
    (lockAspectRatio shiftKey (oldPosition.width / oldPosition.height)
      (limitToTwentyPxMinimum
        (applyToOriginalDimensions oldPosition top right bottom left
          (horizontalAndVerticalChange prims oldRotation s))))
  rw [ho1, ho2]
  exact ⟨le_trans hlim.1 hlock.1, le_trans hlim.2 hlock.2⟩

/-- Witness for C1 on a concrete session over the rationals with a
single pointer-move sample. -/
theorem C1_witness :
    0 < ((⟨0, 0, 100, 100⟩ : Position ℚ)).width ∧
      0 < ((⟨0, 0, 100, 100⟩ : Position ℚ)).height ∧
      resizePipeline qPrims (⟨0, 0, 100, 100⟩ : Position ℚ) 0 identityMatrix
          none false false false false false ⟨0, 10⟩ ∈
        pipelineOutputs qPrims (⟨0, 0, 100, 100⟩ : Position ℚ) 0 identityMatrix
          none false false false false false [⟨0, 10⟩] ∧
      20 ≤ (resizePipeline qPrims (⟨0, 0, 100, 100⟩ : Position ℚ) 0
          identityMatrix none false false false false false ⟨0, 10⟩).width ∧
        20 ≤ (resizePipeline qPrims (⟨0, 0, 100, 100⟩ : Position ℚ) 0
          identityMatrix none false false false false false ⟨0, 10⟩).height :=
  ⟨by norm_num, by norm_num, by simp [pipelineOutputs],
    C1_min_size_invariant_without_snap qPrims (⟨0, 0, 100, 100⟩ : Position ℚ) 0
      identityMatrix false false false false false (by norm_num) (by norm_num)
      [⟨0, 10⟩] _ (by simp [pipelineOutputs])⟩

/-- Counterexample to C1 as stated: on a session with a snap step of 41,
starting position left 0, top 0, width 100, height 100, zero rotation,
identity transform, left handle, no aspect lock, the pointer-move sample
with angle 0 and distance 100 is emitted with width 0: the pipeline clamps
the width to 20, but the subsequent snap stage rounds 20 to the nearest
multiple of 41, which is 0. -/
theorem C1_counterexample :
    (pipelineOutputs realPrims (⟨0, 0, 100, 100⟩ : Position ℝ) 0 identityMatrix
          (some 41) false false false false true [⟨0, 100⟩]).head? =
        some (resizePipeline realPrims (⟨0, 0, 100, 100⟩ : Position ℝ) 0
          identityMatrix (some 41) false false false false true ⟨0, 100⟩) ∧
      (resizePipeline realPrims (⟨0, 0, 100, 100⟩ : Position ℝ) 0
          identityMatrix (some 41) false false false false true ⟨0, 100⟩).width
        < 20 := by
  constructor
  · rfl
  · have hc : ((0 : ℝ) - 0) * Real.pi / 180 = 0 := by ring
    have hf : (⌊(20 : ℝ) / 41 + 1 / 2⌋ : ℤ) = 0 := by
      rw [Int.floor_eq_zero_iff]
      constructor <;> norm_num
    simp only [resizePipeline, horizontalAndVerticalChange, realPrims, hc,
      Real.cos_zero, Real.sin_zero, applyToOriginalDimensions,
      limitToTwentyPxMinimum, snapObjectValues, snapTo, lockAspectRatio,
      offsetForVisualConsistency]
    norm_num [hf]

/-- Claim C2 concerns a code bug: in the source, distinctUntilChanged() is
called with no comparator, so it compares successive pipeline values with
strict reference equality; since every upstream stage allocates a fresh
object per pointer-move, the comparison is always false and the second of
two identical consecutive samples is emitted again rather than suppressed.
This theorem evaluates the faithful model at such a failing input: the
same sample fed twice produces two emissions, and the two emitted
positions are identical. -/
theorem C2_identical_sample_emitted_twice :
    (pipelineOutputs realPrims (⟨0, 0, 100, 100⟩ : Position ℝ) 0 identityMatrix
          none false false true true false
          [⟨0, 10⟩, ⟨0, 10⟩]).length = 2 ∧
      (pipelineOutputs realPrims (⟨0, 0, 100, 100⟩ : Position ℝ) 0
          identityMatrix none false false true true false
          [⟨0, 10⟩, ⟨0, 10⟩]).head? =
        (pipelineOutputs realPrims (⟨0, 0, 100, 100⟩ : Position ℝ) 0
          identityMatrix none false false true true false
          [⟨0, 10⟩, ⟨0, 10⟩]).getLast? :=
  ⟨rfl, rfl⟩

/-- Claim C6: the rotation-unwind stage maps a polar delta to the local
delta (distance times cos of (angle - oldRotation) converted to radians,
distance times sin of the same), and with oldRotation 90 degrees a purely
rightward screen-space drag (angle 0, positive distance) yields a local
delta whose y-component magnitude strictly dominates its x-component
magnitude. -/
theorem C6_rotation_unwind (d : ℝ) (hd : 0 < d) :
    (∀ (oldRotation : ℝ) (c : AngleAndDistance ℝ),
        horizontalAndVerticalChange realPrims oldRotation c =
          ⟨c.distance * Real.cos ((c.angle - oldRotation) * Real.pi / 180),
           c.distance * Real.sin ((c.angle - oldRotation) * Real.pi / 180)⟩) ∧
      |(horizontalAndVerticalChange realPrims 90 ⟨0, d⟩).width| <
        |(horizontalAndVerticalChange realPrims 90 ⟨0, d⟩).height| := by
  constructor
  · intro oldRotation c
    rfl
  · have hang : ((0 : ℝ) - 90) * Real.pi / 180 = -(Real.pi / 2) := by ring
    have h1 : horizontalAndVerticalChange realPrims 90 (⟨0, d⟩ : AngleAndDistance ℝ)
        = ⟨d * Real.cos (-(Real.pi / 2)), d * Real.sin (-(Real.pi / 2))⟩ := by
      simp only [horizontalAndVerticalChange, realPrims]
      rw [hang]
    rw [h1]
    simp [Real.cos_neg, Real.sin_neg, Real.cos_pi_div_two, Real.sin_pi_div_two,
      abs_of_pos hd, hd]

/-- Witness for C6 at the spec's concrete drag distance 10. -/
theorem C6_witness :
    0 < (10 : ℝ) ∧
      ((∀ (oldRotation : ℝ) (c : AngleAndDistance ℝ),
          horizontalAndVerticalChange realPrims oldRotation c =
            ⟨c.distance * Real.cos ((c.angle - oldRotation) * Real.pi / 180),
             c.distance * Real.sin ((c.angle - oldRotation) * Real.pi / 180)⟩) ∧
        |(horizontalAndVerticalChange realPrims 90 ⟨0, 10⟩).width| <
          |(horizontalAndVerticalChange realPrims 90 ⟨0, 10⟩).height|) :=
  ⟨by norm_num, C6_rotation_unwind 10 (by norm_num)⟩

/-- Pointer-moves processed while a session is active all go through that
session's snapshot and carry its ordinal. -/
theorem runSessionsFrom_map_moves (prims : MathPrims α) (snap : Option α)
    (top right bottom left : Bool) (counter i : ℕ) (s : Snapshot α)
    (moves : List (α × α)) (es : List (SessionEvent α)) :
    runSessionsFrom prims snap top right bottom left counter (some (i, s))
        (moves.map (fun m => SessionEvent.pointerMove m.1 m.2) ++ es) =
      moves.map (fun m =>
          (i, resizeSessionSample prims snap top right bottom left s m.1 m.2)) ++
        runSessionsFrom prims snap top right bottom left counter (some (i, s)) es := by
  induction moves with
  | nil => simp
  | cons m ms ih => simp [runSessionsFrom, ih]

/-- Every output of the session manager carries an ordinal at least c, as
long as the active session's ordinal is at least c and the counter has not
fallen below c - 1. -/
theorem runSessionsFrom_id_ge (prims : MathPrims α) (snap : Option α)
    (top right bottom left : Bool) (c : ℕ) (es : List (SessionEvent α)) :
    ∀ (counter : ℕ) (active : Option (ℕ × Snapshot α)),
      (∀ i s, active = some (i, s) → c ≤ i) → c ≤ counter + 1 →
        ∀ q ∈ runSessionsFrom prims snap top right bottom left counter active es,
          c ≤ q.1 := by
  induction es with
  | nil =>
    intro counter active hact hcnt q hq
    simp [runSessionsFrom] at hq
  | cons e rest ih =>
    intro counter active hact hcnt q hq
    cases e with
    | pointerDown s =>
      simp only [runSessionsFrom] at hq
      exact ih (counter + 1) (some (counter + 1, s))
        (fun i s2 h => by
          injection h with h2
          injection h2 with h3 h4
          omega)
        (by omega) q hq
    | pointerMove x y =>
      cases active with
      | none =>
        simp only [runSessionsFrom] at hq
        exact ih counter none hact hcnt q hq
      | some p =>
        obtain ⟨i, s⟩ := p
        simp only [runSessionsFrom, List.mem_cons] at hq
        rcases hq with rfl | hq
        · exact hact i s rfl
        · exact ih counter (some (i, s)) hact hcnt q hq
    | pointerUp =>
      simp only [runSessionsFrom] at hq
      exact ih counter none (fun i s h => by cases h) hcnt q hq

/-- Claim C8: when a second left-button pointer-down occurs while a resize
session is active, the prior session's pipeline emits no further values
from that point on, and a fresh session begins from the freshly captured
snapshot (position, rotation, transform matrix, scale, together with the
new pointer-down origin): the run on the whole event list splits at the
second pointer-down, every output generated after it carries a session
ordinal of at least 2 (so never the first session's ordinal 1), and the
next pointer-move is processed with the second snapshot. -/
theorem C8_second_pointer_down_supersedes (prims : MathPrims α)
    (snap : Option α) (top right bottom left : Bool) (s1 s2 : Snapshot α)
    (moves : List (α × α)) (rest : List (SessionEvent α)) (q : ℕ × Position α)
    (hq : q ∈ runSessionsFrom prims snap top right bottom left 2
      (some (2, s2)) rest) :
    runSessionsFrom prims snap top right bottom left 0 none
        (SessionEvent.pointerDown s1 ::
          (moves.map (fun m => SessionEvent.pointerMove m.1 m.2) ++
            SessionEvent.pointerDown s2 :: rest)) =
      moves.map (fun m =>
          (1, resizeSessionSample prims snap top right bottom left s1 m.1 m.2)) ++
        runSessionsFrom prims snap top right bottom left 2 (some (2, s2)) rest ∧
      2 ≤ q.1 ∧
      (∀ (x y : α) (rest2 : List (SessionEvent α)),
        runSessionsFrom prims snap top right bottom left 2 (some (2, s2))
            (SessionEvent.pointerMove x y :: rest2) =
          (2, resizeSessionSample prims snap top right bottom left s2 x y) ::
            runSessionsFrom prims snap top right bottom left 2 (some (2, s2))
              rest2) := by
  refine ⟨?_, ?_, ?_⟩
  · rw [show runSessionsFrom prims snap top right bottom left 0 none
        (SessionEvent.pointerDown s1 ::
          (moves.map (fun m => SessionEvent.pointerMove m.1 m.2) ++
            SessionEvent.pointerDown s2 :: rest)) =
        runSessionsFrom prims snap top right bottom left 1 (some (1, s1))
          (moves.map (fun m => SessionEvent.pointerMove m.1 m.2) ++
            SessionEvent.pointerDown s2 :: rest) from rfl]
    rw [runSessionsFrom_map_moves]
    rfl
  · exact runSessionsFrom_id_ge prims snap top right bottom left 2 rest 2
      (some (2, s2)) (fun i s h => by
        injection h with h2
        injection h2 with h3 h4
        omega)
      (by omega) q hq
  · intro x y rest2
    rfl

/-- Witness for C8 on concrete rational sessions: the first snapshot at the
origin, the second at (5, 5), no intervening moves, and one queued
pointer-move after the superseding pointer-down. -/
theorem C8_witness :
    (2, resizeSessionSample qPrims none false false false false
        ⟨⟨5, 5, 50, 50⟩, 0, identityMatrix, 1, 5, 5, false⟩ 3 4) ∈
      runSessionsFrom qPrims none false false false false 2
        (some (2, ⟨⟨5, 5, 50, 50⟩, 0, identityMatrix, 1, 5, 5, false⟩))
        [SessionEvent.pointerMove 3 4] ∧
    (runSessionsFrom qPrims none false false false false 0 none
        (SessionEvent.pointerDown ⟨⟨0, 0, 100, 100⟩, 0, identityMatrix, 1, 0, 0, false⟩ ::
          (([] : List (ℚ × ℚ)).map (fun m => SessionEvent.pointerMove m.1 m.2) ++
            SessionEvent.pointerDown ⟨⟨5, 5, 50, 50⟩, 0, identityMatrix, 1, 5, 5, false⟩ ::
              [SessionEvent.pointerMove 3 4])) =
      ([] : List (ℚ × ℚ)).map (fun m =>
          (1, resizeSessionSample qPrims none false false false false
            ⟨⟨0, 0, 100, 100⟩, 0, identityMatrix, 1, 0, 0, false⟩ m.1 m.2)) ++
        runSessionsFrom qPrims none false false false false 2
          (some (2, ⟨⟨5, 5, 50, 50⟩, 0, identityMatrix, 1, 5, 5, false⟩))
          [SessionEvent.pointerMove 3 4] ∧
      2 ≤ (2, resizeSessionSample qPrims none false false false false
        ⟨⟨5, 5, 50, 50⟩, 0, identityMatrix, 1, 5, 5, false⟩ 3 4).1 ∧
      (∀ (x y : ℚ) (rest2 : List (SessionEvent ℚ)),
        runSessionsFrom qPrims none false false false false 2
            (some (2, ⟨⟨5, 5, 50, 50⟩, 0, identityMatrix, 1, 5, 5, false⟩))
            (SessionEvent.pointerMove x y :: rest2) =
          (2, resizeSessionSample qPrims none false false false false
              ⟨⟨5, 5, 50, 50⟩, 0, identityMatrix, 1, 5, 5, false⟩ x y) ::
            runSessionsFrom qPrims none false false false false 2
              (some (2, ⟨⟨5, 5, 50, 50⟩, 0, identityMatrix, 1, 5, 5, false⟩))
              rest2)) :=
  ⟨by simp [runSessionsFrom],
    C8_second_pointer_down_supersedes qPrims none false false false false
      ⟨⟨0, 0, 100, 100⟩, 0, identityMatrix, 1, 0, 0, false⟩
      ⟨⟨5, 5, 50, 50⟩, 0, identityMatrix, 1, 5, 5, false⟩ []
      [SessionEvent.pointerMove 3 4] _ (by simp [runSessionsFrom])⟩

/-- The polar delta of the C7 drag: from pointer-down (200, 200) to
pointer-move (250, 240) at scale 1, the angle is the argument of the
complex number 50 + 40i in degrees and the distance is the square root
of 4100. -/
theorem C7_sample_eq :
    angleAndDistanceFromPointToMouseEvent realPrims 200 200 1 250 240 =
      ⟨Complex.arg ⟨50, 40⟩ * 180 / Real.pi, Real.sqrt 4100⟩ := by
  have hz : ((250 : ℝ) - 200) = 50 := by norm_num
  have hz2 : ((240 : ℝ) - 200) = 40 := by norm_num
  have harg0 : 0 ≤ Complex.arg ⟨50, 40⟩ := by
    rw [Complex.arg_nonneg_iff]
    norm_num
  have hdeg0 : 0 ≤ Complex.arg ⟨50, 40⟩ * 180 / Real.pi :=
    div_nonneg (mul_nonneg harg0 (by norm_num)) Real.pi_pos.le
  simp only [angleAndDistanceFromPointToMouseEvent, angleBetweenPoints,
    distanceBetweenPoints, realPrims, hz, hz2]
  rw [if_neg (not_lt.mpr hdeg0)]
  norm_num

/-- The rotation unwind of the C7 polar delta under zero rotation recovers
the cartesian screen delta (50, 40). -/
theorem C7_local_delta_eq :
    horizontalAndVerticalChange realPrims 0
        ⟨Complex.arg ⟨50, 40⟩ * 180 / Real.pi, Real.sqrt 4100⟩ =
      ⟨50, 40⟩ := by
  have hz : ((⟨50, 40⟩ : ℂ)) ≠ 0 := by
    simp [Complex.ext_iff]
  have habs : Complex.abs ⟨50, 40⟩ = Real.sqrt 4100 := by
    rw [Complex.abs_apply, Complex.normSq_mk]
    norm_num
  have hs : Real.sqrt 4100 ≠ 0 := ne_of_gt (Real.sqrt_pos.mpr (by norm_num))
  have hrad : (Complex.arg ⟨50, 40⟩ * 180 / Real.pi - 0) * Real.pi / 180 =
      Complex.arg ⟨50, 40⟩ := by
    rw [sub_zero]
    field_simp
  simp only [horizontalAndVerticalChange, realPrims, hrad]
  have hcos : Real.cos (Complex.arg ⟨50, 40⟩) = 50 / Real.sqrt 4100 := by
    rw [Complex.cos_arg hz, habs]
  have hsin : Real.sin (Complex.arg ⟨50, 40⟩) = 40 / Real.sqrt 4100 := by
    rw [Complex.sin_arg, habs]
  rw [hcos, hsin, mul_comm (Real.sqrt 4100) ((50 : ℝ) / Real.sqrt 4100),
    mul_comm (Real.sqrt 4100) ((40 : ℝ) / Real.sqrt 4100),
    div_mul_cancel₀ _ hs, div_mul_cancel₀ _ hs]

/-- Claim C7: for a resize session on the se handle (right and bottom edges
active) of an unrotated, unscaled element with position left 0, top 0,
width 100, height 100, with pointer-down at (200, 200), one pointer-move
to (250, 240), then pointer-up, snap undefined and shouldConvertToPercent
false, the final emission is left 0px, top 0px, width 150px, height 140px
-- here exactly, hence within rounding -- and the completion callback is
invoked exactly once. -/
theorem C7_end_to_end (parentWidth parentHeight : ℝ) :
    runResizeSession realPrims 200 200 1 false (⟨0, 0, 100, 100⟩ : Position ℝ)
        0 identityMatrix none false parentWidth parentHeight
        false true true false [(250, 240)] =
      ⟨[⟨0, 0, 150, 140, CssUnit.px⟩], 1⟩ := by
  have hone : runResizeSession realPrims 200 200 1 false
      (⟨0, 0, 100, 100⟩ : Position ℝ) 0 identityMatrix none false
      parentWidth parentHeight false true true false [(250, 240)] =
      ⟨[convertDimensionsToPercent false parentWidth parentHeight
          (resizePipeline realPrims (⟨0, 0, 100, 100⟩ : Position ℝ) 0
            identityMatrix none false false true true false
            (angleAndDistanceFromPointToMouseEvent realPrims 200 200 1
              250 240))],
        1⟩ := rfl
  have h1 : applyToOriginalDimensions (⟨0, 0, 100, 100⟩ : Position ℝ)
      false true true false ⟨50, 40⟩ = ⟨0, 0, 150, 140⟩ := by
    simp [applyToOriginalDimensions]
    norm_num
  have h2 : limitToTwentyPxMinimum (⟨0, 0, 150, 140⟩ : Position ℝ) =
      ⟨0, 0, 150, 140⟩ := by
    simp only [limitToTwentyPxMinimum]
    rw [max_eq_right (by norm_num : (20 : ℝ) ≤ 150),
      max_eq_right (by norm_num : (20 : ℝ) ≤ 140)]
  have h3 : snapObjectValues none (⟨0, 0, 150, 140⟩ : Position ℝ) =
      ⟨0, 0, 150, 140⟩ := rfl
  have h4 : lockAspectRatio false
      ((⟨0, 0, 100, 100⟩ : Position ℝ).width /
        (⟨0, 0, 100, 100⟩ : Position ℝ).height)
      (⟨0, 0, 150, 140⟩ : Position ℝ) = ⟨0, 0, 150, 140⟩ := rfl
  have h5 : offsetForVisualConsistency (⟨0, 0, 100, 100⟩ : Position ℝ)
      identityMatrix false true true false (⟨0, 0, 150, 140⟩ : Position ℝ) =
      ⟨0, 0, 150, 140⟩ := by
    simp [offsetForVisualConsistency, corners, applyMatrix, identityMatrix]
  have hstage : resizePipeline realPrims (⟨0, 0, 100, 100⟩ : Position ℝ) 0
      identityMatrix none false false true true false
      (⟨Complex.arg ⟨50, 40⟩ * 180 / Real.pi, Real.sqrt 4100⟩ :
        AngleAndDistance ℝ) = ⟨0, 0, 150, 140⟩ := by
    simp only [resizePipeline]
    rw [C7_local_delta_eq, h1, h2, h3, h4, h5]
  have hf0 : (⌊(0 : ℝ) * 100 + 1 / 2⌋ : ℤ) = 0 := by
    rw [show (0 : ℝ) * 100 + 1 / 2 = 1 / 2 by norm_num, Int.floor_eq_zero_iff]
    constructor <;> norm_num
  have hf150 : (⌊(150 : ℝ) * 100 + 1 / 2⌋ : ℤ) = 15000 := by
    rw [Int.floor_eq_iff]
    constructor <;> norm_num
  have hf140 : (⌊(140 : ℝ) * 100 + 1 / 2⌋ : ℤ) = 14000 := by
    rw [Int.floor_eq_iff]
    constructor <;> norm_num
  have hr0 : round (0 : ℝ) = 0 := by
    simp only [round, hf0]
    norm_num
  have hr150 : round (150 : ℝ) = 150 := by
    simp only [round, hf150]
    norm_num
  have hr140 : round (140 : ℝ) = 140 := by
    simp only [round, hf140]
    norm_num
  have hconv : convertDimensionsToPercent false parentWidth parentHeight
      (⟨0, 0, 150, 140⟩ : Position ℝ) = ⟨0, 0, 150, 140, CssUnit.px⟩ := by
    simp [convertDimensionsToPercent, hr0, hr150, hr140]
  rw [hone, C7_sample_eq, hstage, hconv]

end RePosition
